import Mathlib

/-!
Verification development for the MCP-client orchestration scripts
(`browser_agent.py`, `chat.py`).

The Python code is shallowly embedded:
  - the MCP tool descriptors (`tool_summary` objects with an `inputSchema`
    dict) become the structures below; Python dicts of parameters become
    association lists in insertion order;
  - the in-place mutation `param_details['type'] = 'string'` performed by
    `convert_mcp_tools_to_llm_format` is made explicit: the conversion
    returns both the produced declarations and the post-call state of the
    (mutated) descriptor list;
  - the orchestration loops (`BrowserAgent.run_task`,
    `OpenAIHandler.get_response`) become fuel-indexed recursive functions
    over oracles for the reasoning service and the tool host, emitting an
    event trace that records process start/stop, tool invocations and the
    messages sent back to the reasoning service.
-/

/-- One parameter description inside an `inputSchema.properties` dict:
a `type` key that may be absent, plus the other keys (modelled by the
optional `description`). -/
structure ParamDetails where
  type? : Option String
  description? : Option String
deriving DecidableEq

/-- The `inputSchema` dict of an MCP tool summary: both the `properties`
and the `required` keys may be absent (the code reads them with
`.get('properties', \x7b\x7d)` and `.get('required', [])`). -/
structure InputSchema where
  properties? : Option (List (String × ParamDetails))
  required? : Option (List String)
deriving DecidableEq

/-- An MCP tool summary as returned by `mcp_client.list_tools()`. -/
structure ToolSummary where
  name : String
  description : String
  inputSchema : InputSchema
deriving DecidableEq

/-- The `parameters` dict handed to `FunctionDeclaration`:
`\x7b"type": "object", "properties": ..., "required": ...\x7d`. -/
structure ParametersSchema where
  type : String
  properties : List (String × ParamDetails)
  required : List String
deriving DecidableEq

/-- A Gemini `FunctionDeclaration`. -/
structure FunctionDeclaration where
  name : String
  description : String
  parameters : ParametersSchema
deriving DecidableEq

/-- A Gemini `Tool`: a bundle of function declarations. -/
structure GeminiTool where
  function_declarations : List FunctionDeclaration
deriving DecidableEq

/-- The body of the loop `if 'type' not in param_details:
param_details['type'] = 'string'` for one parameter dict. -/
def fillType (pd : ParamDetails) : ParamDetails :=
  match pd.type? with
  | none => { pd with type? := some "string" }
  | some _ => pd

/-- The whole `for param_name, param_details in properties.items()` loop:
every parameter lacking a type gets type `string` written into it. -/
def fillProps (props : List (String × ParamDetails)) : List (String × ParamDetails) :=
  props.map (fun p => (p.1, fillType p.2))

/-- The per-summary body of `convert_mcp_tools_to_llm_format`
(identical in `browser_agent._convert_summaries_to_gemini_tools`,
`GeminiHandler` and, up to the provider envelope, `OpenAIHandler`).
First component: the produced `FunctionDeclaration`.  Second component:
the state of the summary after the call — the type-filling loop mutates
the `properties` dicts inside `inputSchema` in place when the
`properties` key is present (when it is absent, `.get` returns a fresh
dict and the input is untouched). -/
def convertOne (ts : ToolSummary) : FunctionDeclaration × ToolSummary :=
  ({ name := ts.name
     description := ts.description
     parameters :=
       { type := "object"
         properties := fillProps (ts.inputSchema.properties?.getD [])
         required := ts.inputSchema.required?.getD [] } },
   { ts with inputSchema :=
      { properties? := ts.inputSchema.properties?.map fillProps
        required? := ts.inputSchema.required? } })

/-- Embedding of `convert_mcp_tools_to_llm_format` (Gemini shape): build one
`FunctionDeclaration` per summary and wrap them in a single `GeminiTool`
when nonempty, returning `[]` otherwise.  The second component is the
post-call state of the descriptor list (the Python function mutates its
argument). -/
def convert_mcp_tools_to_llm_format (summaries : List ToolSummary) :
    List GeminiTool × List ToolSummary :=
  let function_declarations := summaries.map (fun ts => (convertOne ts).1)
  (if function_declarations.isEmpty then []
   else [{ function_declarations := function_declarations }],
   summaries.map (fun ts => (convertOne ts).2))

/-- The lazy model/catalog initialization guard shared by
`GeminiHandler.get_response` and `BrowserAgent.initialize`: build the
tool list from the discovery result and raise (`RuntimeError`) when it
is empty or discovery itself failed. -/
def initialToolSchemaGuard (discovered : Except String (List ToolSummary)) :
    Except String (List GeminiTool) :=
  match discovered with
  | .error _ => .error "RuntimeError: cannot fetch tool definitions at startup"
  | .ok summaries =>
    let gemini_tools := (convert_mcp_tools_to_llm_format summaries).1
    if gemini_tools.isEmpty then
      .error "RuntimeError: cannot fetch tool definitions at startup"
    else .ok gemini_tools

-- Basic sanity examples for the translation.

example :
    (convert_mcp_tools_to_llm_format []).1 = [] := by decide

theorem fillType_idem (pd : ParamDetails) : fillType (fillType pd) = fillType pd := by
  cases pd with
  | mk t d => cases t <;> rfl

theorem fillProps_idem (props : List (String × ParamDetails)) :
    fillProps (fillProps props) = fillProps props := by
  induction props with
  | nil => rfl
  | cons p rest ih =>
    simp only [fillProps, List.map_cons, List.map_map] at *
    simp [fillType_idem, ih]

theorem convertOne_idem (ts : ToolSummary) :
    convertOne (convertOne ts).2 = convertOne ts := by
  cases ts with
  | mk n d sch =>
    cases sch with
    | mk props? req? =>
      cases props? with
      | none => rfl
      | some props =>
        simp [convertOne, fillProps_idem]

/-!
The `BrowserAgent.run_task` orchestration loop.  The reasoning service
is an oracle `llm : Nat → Except String LLMResponse` (the n-th
`send_message_async`, which may raise), the tool host an oracle
`tool : FunctionCall → Except String String` (`mcp_client.call_tool`,
which may raise).  The run emits an event trace: process start/stop,
each tool invocation, and each message sent to the reasoning service.
-/

/-- A Gemini `function_call` part: tool name and argument dict. -/
structure FunctionCall where
  name : String
  args : List (String × String)
deriving DecidableEq

/-- One content part of a Gemini response: plain text or a function
call. -/
inductive ContentPart where
  | text : String → ContentPart
  | functionCall : FunctionCall → ContentPart
deriving DecidableEq

/-- The `part.function_call` accessor (falsy on a text part). -/
def ContentPart.function_call : ContentPart → Option FunctionCall
  | .functionCall fc => some fc
  | .text _ => none

/-- A reasoning-service response: the parts of its (single) candidate's
content, and its `text` property. -/
structure LLMResponse where
  parts : List ContentPart
  text : String
deriving DecidableEq

/-- One entry of `tool_response_parts`: the `function_response`
envelope `\x7bname, response.result\x7d` built for a completed call. -/
structure ToolResponsePart where
  name : String
  result : String
deriving DecidableEq

/-- Observable events of one `run_task` execution. -/
inductive Event where
  | start : Event
  | stop : Event
  | toolInvoke : String → Event
  | sendUser : String → Event
  | sendResults : List ToolResponsePart → Event
deriving DecidableEq

/-- Number of `stop` events in a trace. -/
def countStop : List Event → Nat
  | [] => 0
  | e :: rest => (if e = Event.stop then 1 else 0) + countStop rest

/-- Number of `start` events in a trace. -/
def countStart : List Event → Nat
  | [] => 0
  | e :: rest => (if e = Event.start then 1 else 0) + countStart rest

/-- The `for fc in tool_calls` loop of `run_task`: invoke each call in
request order; a raised exception aborts the loop (no `try` around
`call_tool`); on success the `function_response` parts are accumulated
in request order.  Also returns the events (one `toolInvoke` per
executed call). -/
def runBatch (tool : FunctionCall → Except String String) :
    List FunctionCall → Except String (List ToolResponsePart) × List Event
  | [] => (.ok [], [])
  | fc :: rest =>
    match tool fc with
    | .error e => (.error e, [Event.toolInvoke fc.name])
    | .ok res =>
      match runBatch tool rest with
      | (.error e, evs) => (.error e, Event.toolInvoke fc.name :: evs)
      | (.ok parts, evs) =>
        (.ok ({ name := fc.name, result := res } :: parts),
         Event.toolInvoke fc.name :: evs)

/-- The `while True` loop of `run_task`, fuel-indexed (the source loop
is unbounded; the fuel is a modelling bound only and every claim is
stated with enough fuel).  `idx` numbers the `send_message_async`
calls.  Loop body, faithfully: break when the first part of the
response carries no `function_call` (or there are no parts); otherwise
collect every `function_call` part, run them sequentially, and send all
results back in one message. -/
def runLoop (tool : FunctionCall → Except String String)
    (llm : Nat → Except String LLMResponse) :
    Nat → LLMResponse → Nat → Except String String × List Event
  | 0, _, _ => (.error "model: loop bound reached", [])
  | fuel + 1, response, idx =>
    match response.parts.head?.bind ContentPart.function_call with
    | none => (.ok response.text, [])
    | some _ =>
      let tool_calls := response.parts.filterMap ContentPart.function_call
      if tool_calls.isEmpty then (.ok response.text, [])
      else
        match runBatch tool tool_calls with
        | (.error e, evs) => (.error e, evs)
        | (.ok parts, evs) =>
          match llm idx with
          | .error e => (.error e, evs ++ [Event.sendResults parts])
          | .ok response' =>
            let next := runLoop tool llm fuel response' (idx + 1)
            (next.1, evs ++ Event.sendResults parts :: next.2)

/-- Embedding of `BrowserAgent.run_task`: spawn the tool-host process
(`subprocess.Popen`, which may raise, modelled by `popenOk`), connect
the MCP client (may raise, modelled by `connectOk`), send the user
prompt, run the loop; the `finally` block terminates the process —
exactly when one was spawned — on every exit path. -/
def run_task (user_prompt : String) (popenOk connectOk : Bool)
    (llm : Nat → Except String LLMResponse)
    (tool : FunctionCall → Except String String) (fuel : Nat) :
    Except String String × List Event :=
  if popenOk then
    let body : Except String String × List Event :=
      if connectOk then
        match llm 0 with
        | .error e => (.error e, [Event.sendUser user_prompt])
        | .ok response =>
          let r := runLoop tool llm fuel response 1
          (r.1, Event.sendUser user_prompt :: r.2)
      else (.error "MCP connection failed", [])
    (body.1, Event.start :: body.2 ++ [Event.stop])
  else (.error "Popen failed", [])

theorem countStop_append (a b : List Event) :
    countStop (a ++ b) = countStop a + countStop b := by
  induction a with
  | nil => simp [countStop]
  | cons e rest ih => simp [countStop, ih]; omega

theorem countStart_append (a b : List Event) :
    countStart (a ++ b) = countStart a + countStart b := by
  induction a with
  | nil => simp [countStart]
  | cons e rest ih => simp [countStart, ih]; omega

/-- The batch loop emits only `toolInvoke` events: no process
lifecycle event occurs inside it. -/
theorem runBatch_lifecycle_free (tool : FunctionCall → Except String String)
    (calls : List FunctionCall) :
    countStop (runBatch tool calls).2 = 0 ∧ countStart (runBatch tool calls).2 = 0 := by
  induction calls with
  | nil => exact ⟨rfl, rfl⟩
  | cons fc rest ih =>
    unfold runBatch
    cases tool fc with
    | error e => simp [countStop, countStart]
    | ok res =>
      rcases h : runBatch tool rest with ⟨r, evs⟩
      rw [h] at ih
      cases r with
      | error e => simpa [countStop, countStart] using ih
      | ok parts => simpa [countStop, countStart] using ih

/-- The conversation loop emits only `toolInvoke` and `sendResults`
events: no process lifecycle event occurs inside it. -/
theorem runLoop_lifecycle_free (tool : FunctionCall → Except String String)
    (llm : Nat → Except String LLMResponse) :
    ∀ (fuel : Nat) (response : LLMResponse) (idx : Nat),
      countStop (runLoop tool llm fuel response idx).2 = 0 ∧
      countStart (runLoop tool llm fuel response idx).2 = 0 := by
  intro fuel
  induction fuel with
  | zero => intro response idx; exact ⟨rfl, rfl⟩
  | succ n ih =>
    intro response idx
    unfold runLoop
    cases response.parts.head?.bind ContentPart.function_call with
    | none => exact ⟨rfl, rfl⟩
    | some fc =>
      simp only
      by_cases he : (response.parts.filterMap ContentPart.function_call).isEmpty
      · simp [he, countStop, countStart]
      · simp only [he, if_false]
        rcases hb : runBatch tool (response.parts.filterMap ContentPart.function_call)
          with ⟨r, evs⟩
        have hfree := runBatch_lifecycle_free tool
          (response.parts.filterMap ContentPart.function_call)
        rw [hb] at hfree
        cases r with
        | error e => simpa [countStop, countStart] using hfree
        | ok parts =>
          cases llm idx with
          | error e =>
            simpa [countStop_append, countStart_append, countStop, countStart]
              using hfree
          | ok response' =>
            have hnext := ih response' (idx + 1)
            simp [countStop_append, countStart_append, countStop, countStart,
              hfree.1, hfree.2, hnext.1, hnext.2]

/-- The value a successful `call_tool` returned (dummy on the error
path, which `runBatch` never packages into a result). -/
def resultOf (tool : FunctionCall → Except String String) (fc : FunctionCall) : String :=
  match tool fc with
  | .ok v => v
  | .error _ => ""

/-- When every call in the batch succeeds, the batch loop returns the
`function_response` parts in exactly the request order. -/
theorem runBatch_all_ok (tool : FunctionCall → Except String String)
    (calls : List FunctionCall)
    (hok : ∀ fc ∈ calls, ∃ v, tool fc = Except.ok v) :
    runBatch tool calls
      = (Except.ok (calls.map fun fc => { name := fc.name, result := resultOf tool fc }),
         calls.map fun fc => Event.toolInvoke fc.name) := by
  induction calls with
  | nil => rfl
  | cons fc rest ih =>
    obtain ⟨v, hv⟩ := hok fc (List.mem_cons_self fc rest)
    have hres : resultOf tool fc = v := by unfold resultOf; rw [hv]
    have hrest := ih (fun g hg => hok g (List.mem_cons_of_mem fc hg))
    unfold runBatch
    rw [hv, hrest]
    simp [List.map_cons, hres]

/-- Extracting the function calls back out of a pure function-call part
list recovers the calls. -/
theorem filterMap_function_call_map (calls : List FunctionCall) :
    (calls.map ContentPart.functionCall).filterMap ContentPart.function_call = calls := by
  induction calls with
  | nil => rfl
  | cons fc rest ih =>
    simp only [List.map_cons, List.filterMap_cons, ContentPart.function_call, ih]

/-- Claim C1: on every exit path of `run_task` — normal completion, a
tool-invocation error, or a reasoning-service error — the tool-host
process is stopped exactly once if it was spawned (and never stopped if
`Popen` itself failed, in which case no process exists), and the stop is
the last event of the run, so the process never outlives the task. -/
theorem process_cleanup_exactly_once
    (user_prompt : String) (popenOk connectOk : Bool)
    (llm : Nat → Except String LLMResponse)
    (tool : FunctionCall → Except String String) (fuel : Nat) :
    countStop (run_task user_prompt popenOk connectOk llm tool fuel).2
        = (if popenOk then 1 else 0) ∧
    countStart (run_task user_prompt popenOk connectOk llm tool fuel).2
        = (if popenOk then 1 else 0) ∧
    (run_task user_prompt popenOk connectOk llm tool fuel).2.getLast?
        = (if popenOk then some Event.stop else none) := by
  cases popenOk with
  | false => exact ⟨rfl, rfl, rfl⟩
  | true =>
    cases connectOk with
    | false =>
      refine ⟨rfl, rfl, ?_⟩
      exact List.getLast?_concat _
    | true =>
      cases h0 : llm 0 with
      | error e =>
        simp only [run_task, if_true, h0]
        refine ⟨rfl, rfl, List.getLast?_concat _⟩
      | ok response =>
        have hfree := runLoop_lifecycle_free tool llm fuel response 1
        simp only [run_task, if_true, h0]
        refine ⟨?_, ?_, List.getLast?_concat _⟩
        · simp [countStop_append, countStop, hfree.1]
        · simp [countStart_append, countStart, hfree.2]

/-- Claim C7: a reasoning-service response containing no function-call
request makes the loop break immediately and return the response's text
unchanged, invoking no tool. -/
theorem no_tool_requests_returns_text
    (tool : FunctionCall → Except String String)
    (llm : Nat → Except String LLMResponse)
    (response : LLMResponse) (idx fuel : Nat)
    (h : response.parts.filterMap ContentPart.function_call = []) :
    runLoop tool llm (fuel + 1) response idx = (Except.ok response.text, []) := by
  have hh : response.parts.head?.bind ContentPart.function_call = none := by
    cases hp : response.parts with
    | nil => rfl
    | cons p rest =>
      rw [hp] at h
      cases hfc : p.function_call with
      | none => simp [List.head?, hfc]
      | some fc => rw [List.filterMap_cons, hfc] at h; simp at h
  simp [runLoop, hh]

/-- Claim C7 witness: a pure-text response with text `done` ends the
loop with final answer `done`. -/
theorem no_tool_requests_returns_text_witness :
    runLoop (fun _ => Except.error "unused") (fun _ => Except.error "unused")
        1 { parts := [ContentPart.text "done"], text := "done" } 0
      = (Except.ok "done", []) :=
  no_tool_requests_returns_text _ _ _ 0 0 rfl

/-- Claim C9: the dispatch guard inspects only the first content part:
whenever the first part is plain text the loop exits and the response
text is returned, even if later parts of the same response carry
function calls. -/
theorem first_part_text_returns_text
    (tool : FunctionCall → Except String String)
    (llm : Nat → Except String LLMResponse)
    (response : LLMResponse) (idx fuel : Nat)
    (s : String) (rest : List ContentPart)
    (h : response.parts = ContentPart.text s :: rest) :
    runLoop tool llm (fuel + 1) response idx = (Except.ok response.text, []) := by
  have hh : response.parts.head?.bind ContentPart.function_call = none := by
    rw [h]; rfl
  simp [runLoop, hh]

/-- Claim C9 witness: a response whose first part is text and whose
second part requests `browser_click` still returns the text and
invokes nothing. -/
theorem first_part_text_returns_text_witness :
    runLoop (fun _ => Except.ok "clicked") (fun _ => Except.error "unused") 3
        { parts := [ContentPart.text "answer",
                    ContentPart.functionCall { name := "browser_click", args := [] }],
          text := "answer" } 0
      = (Except.ok "answer", []) :=
  first_part_text_returns_text _ _ _ 0 2 "answer"
    [ContentPart.functionCall { name := "browser_click", args := [] }] rfl

-- Concrete scenarios used to exercise the failure paths of the loop.

/-- A tool host whose every invocation raises a network error. -/
def cexToolErr : FunctionCall → Except String String :=
  fun _ => Except.error "network error"

/-- A response requesting a single `browser_click` call. -/
def cexRespClick : LLMResponse :=
  { parts := [ContentPart.functionCall { name := "browser_click", args := [("selector", "#btn")] }]
    text := "" }

/-- A reasoning service that always requests the `browser_click` call. -/
def cexLlmClick : Nat → Except String LLMResponse := fun _ => Except.ok cexRespClick

/-- Claim C2 counterexample: with a reasoning service requesting one
`browser_click` call and a tool host whose invocation raises, the run
ends with the raised error as its outcome — the error escapes to the
caller of `run_task`; no error result is built and nothing is fed back
to the reasoning service (the trace holds no `sendResults` event, only
the cleanup `stop`). -/
theorem tool_error_is_raised_cex :
    run_task "do it" true true cexLlmClick cexToolErr 5
      = (Except.error "network error",
         [Event.start, Event.sendUser "do it",
          Event.toolInvoke "browser_click", Event.stop]) := rfl

/-- Claim C2 amended: a network or execution error in a tool invocation
is not captured — `call_tool` has no surrounding handler, so the first
failing call aborts the turn with that error, which propagates to the
caller of the engine (the `finally` still stops the process), and no
result is fed back to the reasoning service. -/
theorem tool_error_is_raised
    (tool : FunctionCall → Except String String)
    (llm : Nat → Except String LLMResponse)
    (response : LLMResponse) (idx fuel : Nat)
    (fc : FunctionCall) (rest : List ContentPart) (e : String)
    (hp : response.parts = ContentPart.functionCall fc :: rest)
    (ht : tool fc = Except.error e) :
    runLoop tool llm (fuel + 1) response idx
      = (Except.error e, [Event.toolInvoke fc.name]) := by
  have hh : response.parts.head?.bind ContentPart.function_call = some fc := by
    rw [hp]; rfl
  have hcalls : response.parts.filterMap ContentPart.function_call
      = fc :: rest.filterMap ContentPart.function_call := by
    rw [hp]; rfl
  have hb : runBatch tool (fc :: rest.filterMap ContentPart.function_call)
      = (Except.error e, [Event.toolInvoke fc.name]) := by
    unfold runBatch; rw [ht]
  simp [runLoop, hh, hcalls, hb]

/-- Claim C2 amended witness: the single failing `browser_click` call
makes the loop return the raised error after exactly that invocation. -/
theorem tool_error_is_raised_witness :
    runLoop cexToolErr cexLlmClick 1 cexRespClick 0
      = (Except.error "network error", [Event.toolInvoke "browser_click"]) :=
  tool_error_is_raised cexToolErr cexLlmClick cexRespClick 0 0
    { name := "browser_click", args := [("selector", "#btn")] } [] "network error" rfl rfl

/-- Batch tool call A (succeeds in the C3 scenario). -/
def fcA : FunctionCall := { name := "toolA", args := [] }

/-- Batch tool call B (fails in the C3 scenario). -/
def fcB : FunctionCall := { name := "toolB", args := [] }

/-- Batch tool call C (would succeed, but is never reached). -/
def fcC : FunctionCall := { name := "toolC", args := [] }

/-- A tool host where exactly `toolB` raises. -/
def cexToolBFails : FunctionCall → Except String String :=
  fun fc => if fc.name = "toolB" then Except.error "boom" else Except.ok "ok"

/-- A response carrying the parallel batch [A, B, C]. -/
def cexRespABC : LLMResponse :=
  { parts := [ContentPart.functionCall fcA, ContentPart.functionCall fcB,
              ContentPart.functionCall fcC]
    text := "" }

/-- A reasoning service that always requests the batch [A, B, C]. -/
def cexLlmABC : Nat → Except String LLMResponse := fun _ => Except.ok cexRespABC

/-- Claim C3 counterexample: for the batch [A, B, C] with B failing and
A, C succeeding, the results [resultA, resultB, resultC] are NOT fed
back — the turn aborts with B's error right after invoking A and B; C
is never invoked and no `sendResults` event occurs at all. -/
theorem batch_failure_feeds_back_nothing_cex :
    run_task "task" true true cexLlmABC cexToolBFails 5
      = (Except.error "boom",
         [Event.start, Event.sendUser "task",
          Event.toolInvoke "toolA", Event.toolInvoke "toolB", Event.stop]) := rfl

/-- Claim C3 amended: order preservation holds on the success path
only — when every call of the batch succeeds, the results are fed back
to the reasoning service as a single message in exactly the request
order; when some call fails, its error aborts the turn (preceding
results are discarded, later calls are not executed — the
counterexample above). -/
theorem batch_order_preserved_on_success
    (tool : FunctionCall → Except String String)
    (llm : Nat → Except String LLMResponse)
    (response final : LLMResponse) (idx fuel : Nat)
    (calls : List FunctionCall)
    (hne : calls ≠ [])
    (hp : response.parts = calls.map ContentPart.functionCall)
    (hok : ∀ fc ∈ calls, ∃ v, tool fc = Except.ok v)
    (hllm : llm idx = Except.ok final)
    (hfin : final.parts = []) :
    runLoop tool llm (fuel + 2) response idx
      = (Except.ok final.text,
         (calls.map fun fc => Event.toolInvoke fc.name)
           ++ [Event.sendResults (calls.map fun fc =>
                 { name := fc.name, result := resultOf tool fc })]) := by
  rcases calls with _ | ⟨c, cs⟩
  · exact absurd rfl hne
  · have hh : response.parts.head?.bind ContentPart.function_call = some c := by
      rw [hp]; rfl
    have hcalls : response.parts.filterMap ContentPart.function_call = c :: cs := by
      rw [hp, filterMap_function_call_map]
    have hb := runBatch_all_ok tool (c :: cs) hok
    have hnext : runLoop tool llm (fuel + 1) final (idx + 1)
        = (Except.ok final.text, []) := by
      have hfh : final.parts.head?.bind ContentPart.function_call = none := by
        rw [hfin]; rfl
      simp [runLoop, hfh]
    simp [runLoop, hh, hcalls, hb, hllm, hnext]
    rw [hfin]
    exact ⟨rfl, rfl⟩

/-- An always-succeeding tool host for the C3 witness. -/
def okTool : FunctionCall → Except String String := fun _ => Except.ok "ok"

/-- A response carrying the batch [A, C] for the C3 witness. -/
def respAC : LLMResponse :=
  { parts := [ContentPart.functionCall fcA, ContentPart.functionCall fcC], text := "" }

/-- The final, tool-free response of the C3 witness scenario. -/
def finalDone : LLMResponse := { parts := [], text := "done" }

/-- A reasoning service that answers every result message with the
final response. -/
def llmFinalDone : Nat → Except String LLMResponse := fun _ => Except.ok finalDone

/-- Claim C3 amended witness: the all-success batch [A, C] feeds
[resultA, resultC] back in request order and the run finishes with the
final text. -/
theorem batch_order_preserved_on_success_witness :
    runLoop okTool llmFinalDone 2 respAC 1
      = (Except.ok "done",
         [Event.toolInvoke "toolA", Event.toolInvoke "toolC",
          Event.sendResults [{ name := "toolA", result := "ok" },
                             { name := "toolC", result := "ok" }]]) := by
  have h := batch_order_preserved_on_success okTool llmFinalDone respAC finalDone 1 0
    [fcA, fcC] (by simp) rfl (fun fc _ => ⟨"ok", rfl⟩) rfl rfl
  simpa using h

/-- Claim C4: for any descriptor list handed to the translation, each
descriptor yields a function declaration in the translated schema where
every declared parameter lacking a type is assigned type `string`, and
an absent `required` list defaults to the empty list. -/
theorem schema_defaulting
    (summaries : List ToolSummary) (ts : ToolSummary) (hmem : ts ∈ summaries) :
    ∃ g ∈ (convert_mcp_tools_to_llm_format summaries).1,
      ∃ d ∈ g.function_declarations,
        d.name = ts.name ∧
        (ts.inputSchema.required? = none → d.parameters.required = []) ∧
        (∀ n pd, (n, pd) ∈ ts.inputSchema.properties?.getD [] → pd.type? = none →
          (n, { pd with type? := some "string" }) ∈ d.parameters.properties) := by
  have hne : summaries ≠ [] := List.ne_nil_of_mem hmem
  have hdecl : (summaries.map (fun t => (convertOne t).1)).isEmpty = false := by
    cases summaries with
    | nil => exact absurd rfl hne
    | cons a l => rfl
  refine ⟨{ function_declarations := summaries.map (fun t => (convertOne t).1) }, ?_,
    (convertOne ts).1, ?_, rfl, ?_, ?_⟩
  · simp [convert_mcp_tools_to_llm_format, hdecl]
  · exact List.mem_map_of_mem _ hmem
  · intro hreq
    simp [convertOne, hreq]
  · intro n pd hmem2 hty
    have hin : (n, fillType pd) ∈ fillProps (ts.inputSchema.properties?.getD []) :=
      List.mem_map_of_mem _ hmem2
    have hft : fillType pd = { pd with type? := some "string" } := by
      unfold fillType; rw [hty]
    rw [← hft]
    exact hin

/-- A discovered tool whose parameter has no declared type and whose
schema has no `required` key. -/
def noTypeSummary : ToolSummary :=
  { name := "browser_snapshot"
    description := "Take a snapshot"
    inputSchema :=
      { properties? := some [("filename", { type? := none, description? := some "target file" })]
        required? := none } }

/-- Claim C4 witness: the type-less `filename` parameter of
`browser_snapshot` is translated with type `string` and its absent
required list becomes the empty list. -/
theorem schema_defaulting_witness :
    ∃ g ∈ (convert_mcp_tools_to_llm_format [noTypeSummary]).1,
      ∃ d ∈ g.function_declarations,
        d.name = noTypeSummary.name ∧
        (noTypeSummary.inputSchema.required? = none → d.parameters.required = []) ∧
        (∀ n pd, (n, pd) ∈ noTypeSummary.inputSchema.properties?.getD [] → pd.type? = none →
          (n, { pd with type? := some "string" }) ∈ d.parameters.properties) :=
  schema_defaulting [noTypeSummary] noTypeSummary (by simp)

/-- A discovered tool with a type-less `selector` parameter, used to
exhibit the in-place mutation of the translation. -/
def clickSummary : ToolSummary :=
  { name := "browser_click"
    description := "Click an element"
    inputSchema :=
      { properties? := some [("selector", { type? := none, description? := none })]
        required? := some ["selector"] } }

/-- Claim C5 counterexample: the translation is NOT side-effect free on
its input — translating a descriptor whose `selector` parameter lacks a
type writes type `string` into the descriptor in place, so the
descriptor list after the call differs from the one passed in. -/
theorem translate_mutates_input_cex :
    (convert_mcp_tools_to_llm_format [clickSummary]).2 ≠ [clickSummary] := by
  decide

/-- Claim C5 amended: the translation mutates its input (parameters
lacking a type get type `string` written into the descriptor), but it
is idempotent: a second call on the same (now mutated) descriptor list
yields identical output and causes no further mutation. -/
theorem translate_idempotent (summaries : List ToolSummary) :
    convert_mcp_tools_to_llm_format ((convert_mcp_tools_to_llm_format summaries).2)
      = convert_mcp_tools_to_llm_format summaries := by
  simp only [convert_mcp_tools_to_llm_format, List.map_map]
  have h1 : ((fun ts => (convertOne ts).1) ∘ fun ts => (convertOne ts).2)
      = fun ts => (convertOne ts).1 := by
    funext ts
    simp only [Function.comp_apply, convertOne_idem]
  have h2 : ((fun ts => (convertOne ts).2) ∘ fun ts => (convertOne ts).2)
      = fun ts => (convertOne ts).2 := by
    funext ts
    simp only [Function.comp_apply, convertOne_idem]
  rw [h1, h2]

/-- Claim C6: tool discovery returning zero tools makes session
initialization fail with an error — no model is built and the session
does not proceed with an empty catalog. -/
theorem empty_catalog_rejected
    (summaries : List ToolSummary) (h : summaries = []) :
    initialToolSchemaGuard (Except.ok summaries)
      = Except.error "RuntimeError: cannot fetch tool definitions at startup" := by
  rw [h]; rfl

/-- Claim C6 witness: the empty discovery result is rejected. -/
theorem empty_catalog_rejected_witness :
    initialToolSchemaGuard (Except.ok [])
      = Except.error "RuntimeError: cannot fetch tool definitions at startup" :=
  empty_catalog_rejected [] rfl

/-- The lazy `if not self.model` guard of `GeminiHandler.get_response`
(the same pattern guards `OpenAIHandler.get_response` through
`self.tools` and `BrowserAgent.initialize` through `is_initialized`):
reuse the cached model if present, otherwise run discovery and
translation, raising when they yield no tools.  The Bool flag records
whether the expensive build step ran during this call. -/
def ensureModel (model? : Option (List GeminiTool)) (discovered : List ToolSummary) :
    Except String (List GeminiTool × Bool) :=
  match model? with
  | some m => Except.ok (m, false)
  | none =>
    let gemini_tools := (convert_mcp_tools_to_llm_format discovered).1
    if gemini_tools.isEmpty then
      Except.error "RuntimeError: cannot fetch tool definitions at startup"
    else Except.ok (gemini_tools, true)

/-- Number of catalog builds (discovery plus translation) performed
across `n` successive `get_response` calls on one adapter, starting
from cache state `model?` (a failed build leaves the cache unset, as in
the source, where the exception propagates before assignment). -/
def countBuilds (model? : Option (List GeminiTool)) (discovered : List ToolSummary) :
    Nat → Nat
  | 0 => 0
  | n + 1 =>
    match ensureModel model? discovered with
    | Except.error _ => 1 + countBuilds model? discovered n
    | Except.ok (m, built) => (if built then 1 else 0) + countBuilds (some m) discovered n

theorem countBuilds_cached (m : List GeminiTool) (discovered : List ToolSummary)
    (n : Nat) : countBuilds (some m) discovered n = 0 := by
  induction n with
  | zero => rfl
  | succ k ih => simp [countBuilds, ensureModel, ih]

/-- Claim C8: with a nonempty discovery result, the catalog is built
lazily on first use and exactly once for the adapter's lifetime: over
any number `n` of `get_response` calls the expensive build step runs
zero times when the adapter is never used and exactly once otherwise,
with every later call reusing the cache. -/
theorem catalog_built_once (discovered : List ToolSummary) (n : Nat)
    (h : discovered ≠ []) :
    countBuilds none discovered n = if n = 0 then 0 else 1 := by
  cases n with
  | zero => rfl
  | succ k =>
    have hne : ((convert_mcp_tools_to_llm_format discovered).1).isEmpty = false := by
      cases discovered with
      | nil => exact absurd rfl h
      | cons a l => rfl
    simp [countBuilds, ensureModel, hne, countBuilds_cached]

/-- Claim C8 witness: three calls on a fresh adapter with one
discovered tool perform exactly one build. -/
theorem catalog_built_once_witness :
    countBuilds none [clickSummary] 3 = if 3 = 0 then 0 else 1 :=
  catalog_built_once [clickSummary] 3 (by simp)

/-!
`OpenAIHandler.get_response`.  The caller-owned `chat_history` list is
threaded explicitly; the local `messages` list (system instruction,
prior history, user input, assistant tool-call turns and tool results)
is kept separate, exactly as in the source, where only the final
no-tool-calls branch appends to `chat_history`.
-/

/-- One entry of the caller-owned `chat_history`. -/
structure ChatMessage where
  role : String
  content : String
deriving DecidableEq

/-- One `tool_call` object of an OpenAI response message. -/
structure ToolCallRequest where
  id : String
  name : String
  arguments : String
deriving DecidableEq

/-- Embedding of `response.choices[0].message`: its `tool_calls` (empty list models
the falsy no-tool-calls case) and its `content`. -/
structure ResponseMessage where
  tool_calls : List ToolCallRequest
  content : String
deriving DecidableEq

/-- One entry of the local `messages` list. -/
inductive OAMessage where
  | chat : ChatMessage → OAMessage
  | assistantCalls : ResponseMessage → OAMessage
  | toolResult : String → String → String → OAMessage
deriving DecidableEq

/-- The `for tool_call in response_message.tool_calls` loop: invoke
each call in order (`json.loads` and `call_tool` may raise, modelled by
the oracle's error), building the `role: tool` messages; an error
aborts the whole request. -/
def runToolCalls (tool : ToolCallRequest → Except String String) :
    List ToolCallRequest → Except String (List OAMessage)
  | [] => Except.ok []
  | tc :: rest =>
    match tool tc with
    | Except.error e => Except.error e
    | Except.ok res =>
      match runToolCalls tool rest with
      | Except.error e => Except.error e
      | Except.ok msgs => Except.ok (OAMessage.toolResult tc.id tc.name res :: msgs)

/-- The `while True` loop of `OpenAIHandler.get_response`,
fuel-indexed.  Returns the outcome and the final state of the
caller-owned `chat_history`: both appends to it happen only in the
final-answer branch. -/
def openaiLoop (llm : Nat → Except String ResponseMessage)
    (tool : ToolCallRequest → Except String String) (user_input : String) :
    Nat → List OAMessage → List ChatMessage → Nat →
      Except String String × List ChatMessage
  | 0, _, chat_history, _ => (Except.error "model: loop bound reached", chat_history)
  | fuel + 1, messages, chat_history, idx =>
    match llm idx with
    | Except.error e => (Except.error e, chat_history)
    | Except.ok rm =>
      if rm.tool_calls.isEmpty then
        (Except.ok rm.content,
         chat_history ++ [{ role := "user", content := user_input },
                          { role := "assistant", content := rm.content }])
      else
        match runToolCalls tool rm.tool_calls with
        | Except.error e => (Except.error e, chat_history)
        | Except.ok toolMsgs =>
          openaiLoop llm tool user_input fuel
            (messages ++ OAMessage.assistantCalls rm :: toolMsgs) chat_history (idx + 1)

/-- Embedding of `OpenAIHandler.get_response` end to end: lazy tool-catalog check
(`initOk` false models its `RuntimeError`), process spawn and MCP
connection (each may raise), then the loop over the seeded `messages`
list.  The pair carries the outcome and the caller's `chat_history`
after the call. -/
def openai_get_response (initOk popenOk connectOk : Bool)
    (llm : Nat → Except String ResponseMessage)
    (tool : ToolCallRequest → Except String String)
    (system_instruction user_input : String)
    (chat_history : List ChatMessage) (fuel : Nat) :
    Except String String × List ChatMessage :=
  if initOk then
    if popenOk then
      if connectOk then
        openaiLoop llm tool user_input fuel
          (OAMessage.chat { role := "system", content := system_instruction }
            :: chat_history.map OAMessage.chat
            ++ [OAMessage.chat { role := "user", content := user_input }])
          chat_history 0
      else (Except.error "MCP connection failed", chat_history)
    else (Except.error "Popen failed", chat_history)
  else (Except.error "RuntimeError: cannot fetch tool definitions at startup", chat_history)

theorem openaiLoop_history (llm : Nat → Except String ResponseMessage)
    (tool : ToolCallRequest → Except String String)
    (user_input : String) (chat_history : List ChatMessage) :
    ∀ (fuel : Nat) (messages : List OAMessage) (idx : Nat),
      (openaiLoop llm tool user_input fuel messages chat_history idx).2
        = match (openaiLoop llm tool user_input fuel messages chat_history idx).1 with
          | Except.ok t =>
            chat_history ++ [{ role := "user", content := user_input },
                             { role := "assistant", content := t }]
          | Except.error _ => chat_history := by
  intro fuel
  induction fuel with
  | zero => intro messages idx; rfl
  | succ k ih =>
    intro messages idx
    unfold openaiLoop
    cases llm idx with
    | error e => rfl
    | ok rm =>
      cases hc : rm.tool_calls.isEmpty with
      | true => simp [hc]
      | false =>
        simp only [hc, Bool.false_eq_true, if_false]
        cases runToolCalls tool rm.tool_calls with
        | error e => rfl
        | ok toolMsgs => exact ih _ _

/-- Claim C10: `OpenAIHandler.get_response` mutates the caller-owned
conversation history only on success — when a final answer is produced
exactly the two entries (user input, assistant answer) are appended;
on any error (init failure, spawn or connection failure, reasoning
failure, tool failure, unanswered loop) the history is returned
unchanged. -/
theorem history_mutated_only_on_success
    (initOk popenOk connectOk : Bool)
    (llm : Nat → Except String ResponseMessage)
    (tool : ToolCallRequest → Except String String)
    (system_instruction user_input : String)
    (chat_history : List ChatMessage) (fuel : Nat) :
    (openai_get_response initOk popenOk connectOk llm tool
        system_instruction user_input chat_history fuel).2
      = match (openai_get_response initOk popenOk connectOk llm tool
            system_instruction user_input chat_history fuel).1 with
        | Except.ok t =>
          chat_history ++ [{ role := "user", content := user_input },
                           { role := "assistant", content := t }]
        | Except.error _ => chat_history := by
  cases initOk with
  | false => rfl
  | true =>
    cases popenOk with
    | false => rfl
    | true =>
      cases connectOk with
      | false => rfl
      | true =>
        exact openaiLoop_history llm tool user_input chat_history fuel _ 0
